import Mathlib

/-!
Verification of the RPC correlation protocol in `src/remotify.ts`
(redis-remotify). The TypeScript source is shallowly embedded:

* JSON-serializable JavaScript values are the inductive type `Val`;
  a JS `Error` instance is the constructor `Val.err` carrying `message`,
  `stack` and `name` (own non-enumerable fields of an `Error`) plus the
  list of its own enumerable properties (`extra`).
* `jsonReplacer`, `Listen.onCall`, `Remotify.onCallback`,
  `Remotify.addCallback`, `RedisEventSubscriber.onEvent` are translated
  function by function.
* The body of `Remotify.remotify` (the per-call race between the
  publish-count liveness check, the pending reply, and the timeout timer)
  is embedded as a state machine `Remotify.step` over `CallState`; a trace
  is a list of scheduler events folded through `Remotify.step`.
* Fallible JS code (a `JSON.parse` that can throw) is modelled with
  `Except Unit`: the payload argument is `none` when the wire string is
  not valid JSON, and the dispatcher returns `.error ()` where the source
  would throw.
-/

/-- JSON-style JavaScript values. `err` is a native `Error` instance:
`message`, `stack`, `name` are its own non-enumerable fields, `extra` its
own enumerable properties (insertion ordered, distinct keys). -/
inductive Val where
  | null : Val
  | bool : Bool → Val
  | num : Int → Val
  | str : String → Val
  | arr : List Val → Val
  | obj : List (String × Val) → Val
  | err : String → String → String → List (String × Val) → Val

mutual

/-- A value is plain (JSON-serializable with no embedded `Error`
instance) when no `err` node occurs in it. -/
def Val.plain : Val → Bool
  | .null => true
  | .bool _ => true
  | .num _ => true
  | .str _ => true
  | .arr xs => plainList xs
  | .obj fs => plainFields fs
  | .err _ _ _ _ => false

def plainList : List Val → Bool
  | [] => true
  | x :: xs => Val.plain x && plainList xs

def plainFields : List (String × Val) → Bool
  | [] => true
  | kv :: fs => Val.plain kv.2 && plainFields fs

end

/-- First binding of key `k` in a JS-object field list (JS objects have
distinct keys, so the first binding is the binding). -/
def findField (k : String) : List (String × Val) → Option Val
  | [] => none
  | (k', v) :: fs => if k' == k then some v else findField k fs

/-- JS property assignment `obj[k] = v`: overwrite the first (hence, on
a distinct-key object, the only) binding of `k` in place, else append;
insertion order is preserved either way. -/
def setKey : List (String × Val) → String → Val → List (String × Val)
  | [], k, v => [(k, v)]
  | (k₀, v₀) :: fs, k, v =>
    if k₀ == k then (k, v) :: fs else (k₀, v₀) :: setKey fs k v

/-- The loop `for (const k of Object.keys(e)) obj[k] = e[k]` folded over
a starting object. -/
def assignFields (base : List (String × Val)) :
    List (String × Val) → List (String × Val)
  | [] => base
  | (k, v) :: rest => assignFields (setKey base k v) rest

/-- Embedding of `jsonReplacer` from `src/remotify.ts`: an `Error`
instance becomes a plain object `\x7bmessage, stack, name\x7d` over which
every own enumerable property of the error is then assigned; any other
value is returned unchanged. -/
def jsonReplacer : Val → Val
  | .err m s n extra =>
      .obj (assignFields
        [("message", .str m), ("stack", .str s), ("name", .str n)] extra)
  | v => v

mutual

/-- Effect of `JSON.parse(JSON.stringify(x))` (no replacer) on a value:
structure is preserved except that an `Error` keeps only its own
enumerable properties. Used on the call path, which stringifies without
a replacer. -/
def defaultSerialize : Val → Val
  | .null => .null
  | .bool b => .bool b
  | .num n => .num n
  | .str s => .str s
  | .arr xs => .arr (defaultSerializeList xs)
  | .obj fs => .obj (defaultSerializeFields fs)
  | .err _ _ _ extra => .obj (defaultSerializeFields extra)

def defaultSerializeList : List Val → List Val
  | [] => []
  | x :: xs => defaultSerialize x :: defaultSerializeList xs

def defaultSerializeFields : List (String × Val) → List (String × Val)
  | [] => []
  | (k, v) :: fs => (k, defaultSerialize v) :: defaultSerializeFields fs

end

mutual

/-- Effect of `JSON.parse(JSON.stringify(x, jsonReplacer))` on a value:
`stringify` applies `jsonReplacer` at every node, replacing each `Error`
by the object `jsonReplacer` builds and then recursing into it. The
three fresh fields `message`/`stack`/`name` are strings (fixed by the
recursion), so recursing after the assignment equals assigning over the
recursively serialized enumerable properties, which is the form used
here (see `replacerSerialize_err_eq_jsonReplacer`). -/
def replacerSerialize : Val → Val
  | .null => .null
  | .bool b => .bool b
  | .num n => .num n
  | .str s => .str s
  | .arr xs => .arr (replacerSerializeList xs)
  | .obj fs => .obj (replacerSerializeFields fs)
  | .err m s n extra =>
      .obj (assignFields
        [("message", .str m), ("stack", .str s), ("name", .str n)]
        (replacerSerializeFields extra))

def replacerSerializeList : List Val → List Val
  | [] => []
  | x :: xs => replacerSerialize x :: replacerSerializeList xs

def replacerSerializeFields : List (String × Val) → List (String × Val)
  | [] => []
  | (k, v) :: fs => (k, replacerSerialize v) :: replacerSerializeFields fs

end

/-- JS property read `v[k]` for the values the claims inspect: fields of
a plain object, or `message`/`stack`/`name`/enumerable fields of an
`Error`. -/
def Val.getProp (v : Val) (k : String) : Option Val :=
  match v with
  | .obj fs => findField k fs
  | .err m s n extra =>
      if k == "message" then some (.str m)
      else if k == "stack" then some (.str s)
      else if k == "name" then some (.str n)
      else findField k extra
  | _ => none

/-- Whether a value is a native `Error` instance (`instanceof Error`). -/
def Val.isError : Val → Bool
  | .err _ _ _ _ => true
  | _ => false

/-- Model of the JS `ns.split("/")` used by every dispatcher: split at
every `/`, keeping empty segments (so a leading slash yields a leading
empty segment). -/
def splitSlashAux : List Char → String → List String
  | [], acc => [acc]
  | c :: cs, acc =>
      if c = '/' then acc :: splitSlashAux cs "" else splitSlashAux cs (acc.push c)

def splitSlash (s : String) : List String :=
  splitSlashAux s.toList ""

/-- Call topic `/remotify/<serverid>/call/<fnname>`. -/
def callTopic (serverid fnname : String) : String :=
  "/remotify/" ++ serverid ++ "/call/" ++ fnname

/-- Reply topic `/remotify/<serverid>/callback/<clientid>`. -/
def callbackTopic (serverid clientid : String) : String :=
  "/remotify/" ++ serverid ++ "/callback/" ++ clientid

/-- Wire shape of the `Call` type in `src/remotify.ts`. -/
structure CallMsg where
  clientid : String
  callback : Nat
  arguments : List Val

/-- Wire shape of the `Callback` type in `src/remotify.ts`. -/
structure CallbackMsg where
  callback : Nat
  method : String
  success : Bool
  result : Val

/-- A registered handler: the awaited `fn(...args)` either resolves with
a value or throws/rejects with a value. -/
def Handler := List Val → Except Val Val

/-- Lookup in the listener's `fns : Map<string, fn>`. -/
def lookupFn : List (String × Handler) → String → Option Handler
  | [], _ => none
  | (k, f) :: fns, name => if k == name then some f else lookupFn fns name

/-- Payload of the reply as published: `JSON.stringify(callback,
jsonReplacer)` followed by the receiving side's `JSON.parse`; only the
`result` field can hold a non-scalar, so only it is transformed. -/
def serializeCallbackMsg (c : CallbackMsg) : CallbackMsg :=
  { c with result := replacerSerialize c.result }

/-- Embedding of `Listen.onCall`. Arguments mirror the fields of `this`
(`serverid`, `fns`) plus the push-delivery arguments `ns` and the parse
result of the payload string (`none` when `JSON.parse` would throw).
Returns `.ok none` when the message is ignored, `.ok (some (topic,
reply))` when a reply is published to `topic`, and `.error ()` when
`JSON.parse` throws. -/
def Listen.onCall (serverid : String) (fns : List (String × Handler))
    (ns : String) (parsed : Option CallMsg) :
    Except Unit (Option (String × CallbackMsg)) :=
  let segs := splitSlash ns
  if segs.get? 1 ≠ some "remotify" then .ok none
  else if segs.get? 2 ≠ some serverid then .ok none
  else if segs.get? 3 ≠ some "call" then .ok none
  else
    match parsed with
    | none => .error ()
    | some data =>
      let fn := match segs.get? 4 with
        | some fnname => lookupFn fns fnname
        | none => none
      let fnnameStr := match segs.get? 4 with
        | some fnname => fnname
        | none => "undefined"
      let cb : CallbackMsg :=
        match fn with
        | none =>
          { callback := data.callback, method := ns, success := false,
            result := .str ("unknown function \"" ++ fnnameStr ++ "\"") }
        | some f =>
          match f data.arguments with
          | .ok r =>
            { callback := data.callback, method := ns, success := true,
              result := r }
          | .error r =>
            { callback := data.callback, method := ns, success := false,
              result := r }
      .ok (some (callbackTopic serverid data.clientid, serializeCallbackMsg cb))

/-- What the caller's inbound dispatcher did with a message. -/
inductive CbAction where
  | ignored : CbAction
  | settled : Nat → Bool → Val → CbAction

/-- Embedding of `Remotify.onCallback`. Arguments mirror `this`
(`serverid`, `clientid` — the latter is available on `this.config` but,
like the source, never read — and the pending-id registry) plus the
push-delivery arguments. The id set models the keys of
`this.callbacks`; `.settled id success result` records that the stored
`resolve` (success) or `reject` wrapper ran, which deletes the entry
before settling. `.error ()` models the `JSON.parse` throw. -/
def Remotify.onCallback (serverid : String) (clientid : String)
    (registry : List Nat) (ns : String) (parsed : Option CallbackMsg) :
    Except Unit (List Nat × CbAction) :=
  let segs := splitSlash ns
  if segs.get? 1 ≠ some "remotify" then .ok (registry, .ignored)
  else if segs.get? 2 ≠ some serverid then .ok (registry, .ignored)
  else if segs.get? 3 ≠ some "callback" then .ok (registry, .ignored)
  else
    match parsed with
    | none => .error ()
    | some data =>
      if registry.contains data.callback then
        .ok (registry.filter (fun i => !(i == data.callback)),
             .settled data.callback data.success data.result)
      else .ok (registry, .ignored)

/-- Embedding of `RedisEventSubscriber.onEvent`: `nsCfg` is the
configured channel, `keys` the keys of the listener map. `.ok (some (e,
d))` means listener `e` was invoked with data `d`; `.ok none` means the
message was ignored. -/
def RedisEventSubscriber.onEvent (nsCfg : String) (keys : List String)
    (ns : String) (parsed : Option (String × Val)) :
    Except Unit (Option (String × Val)) :=
  let segs := splitSlash ns
  if segs.get? 1 ≠ some "remotifyEvent" then .ok none
  else if segs.get? 2 ≠ some nsCfg then .ok none
  else
    match parsed with
    | none => .error ()
    | some ed =>
      if keys.contains ed.1 then .ok (some ed) else .ok none

/-- The rejection value built on the zero-subscriber path of
`Remotify.remotify`: `new Error(serverid + " backend is down or method
does not exist")` with `error.cause = "remotifyBackendDown"` assigned.
The runtime stack string is environment-dependent and modelled as
empty. -/
def backendDownError (serverid : String) : Val :=
  .err (serverid ++ " backend is down or method does not exist") "" "Error"
    [("cause", .str "remotifyBackendDown")]

/-- The rejection value built on the timeout path of
`Remotify.remotify`. -/
def timeoutError (fnname : String) (args : List Val) : Val :=
  .obj [("cause", .str "timeout"), ("fnname", .str fnname),
        ("args", .arr args), ("message", .str "Timeout")]

/-- State of a JS promise. -/
inductive PromState where
  | pending : PromState
  | resolvedWith : Val → PromState
  | rejectedWith : Val → PromState

/-- Settlement of `Promise.race([Promise.all([isDown, promise]),
sleep(timeout).then(() => timedout)])` inside `Remotify.remotify`. -/
inductive RaceResult where
  | timedoutSym : RaceResult
  | allDone : Val → RaceResult
  | allRejected : Val → RaceResult

/-- Final settlement of the promise `remotify` returns to its caller. -/
inductive Outcome where
  | resolved : Val → Outcome
  | rejected : Val → Outcome

/-- Per-call constants captured by the `remotify` closure. -/
structure CallCfg where
  serverid : String
  fnname : String
  args : List Val

/-- State of one in-flight call issued by `Remotify.remotify`, for one
correlation id. `inReg` is whether the id is still a key of
`this.callbacks`; `deletions` counts actual removals of that key;
`prom` is the promise installed by `addCallback`; `isDown` is the
liveness-check promise around `publish`; `race` the settlement of the
`Promise.race`; `contRan` whether the code after `await Promise.race`
(or the rejection of the returned promise) has run; `outcome` the
settlement handed to the caller; `pubDone`/`timerFired` guard the
one-shot publish acknowledgment and timer; `downRejected` records that
the zero-subscriber rejection branch fired. -/
structure CallState where
  inReg : Bool
  deletions : Nat
  prom : PromState
  isDown : PromState
  race : Option RaceResult
  contRan : Bool
  outcome : Option Outcome
  pubDone : Bool
  timerFired : Bool
  downRejected : Bool

/-- State right after `addCallback` stored the entry and `remotify`
published the call. -/
def initCall : CallState :=
  { inReg := true, deletions := 0, prom := .pending, isDown := .pending,
    race := none, contRan := false, outcome := none, pubDone := false,
    timerFired := false, downRejected := false }

/-- Value of the race after promise-combinator propagation:
`Promise.all` rejects as soon as either input rejects and resolves once
both have resolved (the race then carries the pending-call value, which
the source reads as `result[1]`); a settled race never changes. -/
def raceOf (st : CallState) : Option RaceResult :=
  match st.race with
  | some r => some r
  | none =>
    match st.prom with
    | .rejectedWith v => some (.allRejected v)
    | .resolvedWith v =>
      match st.isDown with
      | .resolvedWith _ => some (.allDone v)
      | .rejectedWith e => some (.allRejected e)
      | .pending => none
    | .pending =>
      match st.isDown with
      | .rejectedWith e => some (.allRejected e)
      | _ => none

/-- Propagate promise settlements into the race. -/
def settleRace (st : CallState) : CallState :=
  { st with race := raceOf st }

/-- Scheduler events that can reach one in-flight call on the JS event
loop: the publish acknowledgment (with positive count, zero count, or a
transport failure), a matching reply dispatched to this call's stored
resolve/reject wrapper, the timeout timer firing, and the continuation
after `await Promise.race`. -/
inductive Ev where
  | pubOk : Ev
  | pubZero : Ev
  | pubErr : Val → Ev
  | reply : Bool → Val → Ev
  | timerFire : Ev
  | cont : Ev

/-- Whether an event is the zero-subscriber publish acknowledgment. -/
def Ev.isPubZero : Ev → Bool
  | .pubZero => true
  | _ => false

/-- One step of the in-flight call, mirroring `Remotify.remotify` and
the wrappers installed by `Remotify.addCallback`:

* `pubOk`: the publish count was nonzero, `isDown` resolves.
* `pubZero`: count zero, `isDown` rejects with the BackendDown error.
* `pubErr e`: `publish` itself rejected, `isDown` rejects with `e`.
* `reply success result`: `onCallback` found the id in `this.callbacks`
  and ran the stored wrapper, which deletes the entry and then settles
  the pending promise; with the entry absent the message is ignored.
* `timerFire`: the `sleep` timer fires; it wins the race only if the
  race is still unsettled.
* `cont`: the code after `await Promise.race` runs (or, when the race
  rejected, the rejection propagates to the returned promise). On the
  timeout branch the source re-checks `this.callbacks.get(id)` and
  deletes only a still-present entry, then rejects with the timeout
  record; on the rejected branch it rejects with the race's reason and
  performs no cleanup; otherwise it resolves with `result[1]`. -/
def Remotify.step (cfg : CallCfg) (st : CallState) : Ev → CallState
  | .pubOk =>
    if st.pubDone then st
    else settleRace { st with isDown := .resolvedWith .null, pubDone := true }
  | .pubZero =>
    if st.pubDone then st
    else settleRace { st with
      isDown := .rejectedWith (backendDownError cfg.serverid),
      pubDone := true, downRejected := true }
  | .pubErr e =>
    if st.pubDone then st
    else settleRace { st with isDown := .rejectedWith e, pubDone := true }
  | .reply success result =>
    if st.inReg then
      settleRace { st with
        inReg := false
        deletions := st.deletions + 1
        prom := if success then .resolvedWith result else .rejectedWith result }
    else st
  | .timerFire =>
    if st.timerFired then st
    else
      match st.race with
      | none => { st with timerFired := true, race := some .timedoutSym }
      | some _ => { st with timerFired := true }
  | .cont =>
    if st.contRan then st
    else
      match st.race with
      | none => st
      | some (.allRejected v) =>
        { st with contRan := true, outcome := some (.rejected v) }
      | some (.allDone v) =>
        { st with contRan := true, outcome := some (.resolved v) }
      | some .timedoutSym =>
        if st.inReg then
          { st with
            inReg := false
            deletions := st.deletions + 1
            contRan := true
            outcome := some (.rejected (timeoutError cfg.fnname cfg.args)) }
        else
          { st with
            contRan := true
            outcome := some (.rejected (timeoutError cfg.fnname cfg.args)) }

/-- Run one call against a schedule of events. -/
def Remotify.run (cfg : CallCfg) (evs : List Ev) : CallState :=
  evs.foldl (Remotify.step cfg) initCall

/-- State owned by `Remotify.addCallback`: the `cbCounter` and the key
set of `this.callbacks`. -/
structure CallbacksState where
  cbCounter : Nat
  callbacks : List Nat

/-- Embedding of `Remotify.addCallback`: `const id = ++this.cbCounter`
then `this.callbacks.set(id, ...)`; returns the allocated id. -/
def Remotify.addCallback (st : CallbacksState) : Nat × CallbacksState :=
  (st.cbCounter + 1,
   { cbCounter := st.cbCounter + 1, callbacks := st.callbacks ++ [st.cbCounter + 1] })

/-- Registry state of a freshly constructed `Remotify` instance. -/
def initCallbacks : CallbacksState := { cbCounter := 0, callbacks := [] }

/-- Correlation ids produced by `n` consecutive calls. -/
def allocSeq : CallbacksState → Nat → List Nat
  | _, 0 => []
  | st, n + 1 =>
    (Remotify.addCallback st).1 :: allocSeq (Remotify.addCallback st).2 n

/-- Invariant of an in-flight call: the registry entry is present with no
deletion performed, or absent with exactly one deletion; an outcome
exists only after the continuation ran; the continuation runs only on a
settled race; and a continuation that saw the timeout symbol produced
the timeout rejection and left the registry entry removed. -/
def GoodSt (cfg : CallCfg) (st : CallState) : Prop :=
  ((st.inReg = true ∧ st.deletions = 0) ∨ (st.inReg = false ∧ st.deletions = 1)) ∧
  (st.outcome ≠ none → st.contRan = true) ∧
  (st.contRan = true → st.race ≠ none) ∧
  (st.contRan = true → st.race = some RaceResult.timedoutSym →
    st.outcome = some (Outcome.rejected (timeoutError cfg.fnname cfg.args)) ∧
    st.inReg = false)

def boomHandler : Handler :=
  fun _ => .error (Val.err "boom" "stacktrace" "Error" [("code", Val.num 42)])

def oopsHandler : Handler :=
  fun _ => .error (Val.str "oops")

def squareHandler : Handler :=
  fun args =>
    match args with
    | [Val.num x] => .ok (Val.num (x * x))
    | _ => .error (Val.str "bad arguments")

mutual

theorem replacerSerialize_plain : ∀ v : Val, Val.plain v = true → replacerSerialize v = v
  | .null, _ => rfl
  | .bool _, _ => rfl
  | .num _, _ => rfl
  | .str _, _ => rfl
  | .arr xs, h => by
    simp only [replacerSerialize]
    rw [replacerSerializeList_plain xs (by simpa [Val.plain] using h)]
  | .obj fs, h => by
    simp only [replacerSerialize]
    rw [replacerSerializeFields_plain fs (by simpa [Val.plain] using h)]

theorem replacerSerializeList_plain :
    ∀ xs : List Val, plainList xs = true → replacerSerializeList xs = xs
  | [], _ => rfl
  | x :: xs, h => by
    simp only [plainList, Bool.and_eq_true] at h
    simp only [replacerSerializeList]
    rw [replacerSerialize_plain x h.1, replacerSerializeList_plain xs h.2]

theorem replacerSerializeFields_plain :
    ∀ fs : List (String × Val), plainFields fs = true → replacerSerializeFields fs = fs
  | [], _ => rfl
  | (k, v) :: fs, h => by
    simp only [plainFields, Bool.and_eq_true] at h
    simp only [replacerSerializeFields]
    rw [replacerSerialize_plain v h.1, replacerSerializeFields_plain fs h.2]

end

mutual

theorem defaultSerialize_plain : ∀ v : Val, Val.plain v = true → defaultSerialize v = v
  | .null, _ => rfl
  | .bool _, _ => rfl
  | .num _, _ => rfl
  | .str _, _ => rfl
  | .arr xs, h => by
    simp only [defaultSerialize]
    rw [defaultSerializeList_plain xs (by simpa [Val.plain] using h)]
  | .obj fs, h => by
    simp only [defaultSerialize]
    rw [defaultSerializeFields_plain fs (by simpa [Val.plain] using h)]

theorem defaultSerializeList_plain :
    ∀ xs : List Val, plainList xs = true → defaultSerializeList xs = xs
  | [], _ => rfl
  | x :: xs, h => by
    simp only [plainList, Bool.and_eq_true] at h
    simp only [defaultSerializeList]
    rw [defaultSerialize_plain x h.1, defaultSerializeList_plain xs h.2]

theorem defaultSerializeFields_plain :
    ∀ fs : List (String × Val), plainFields fs = true → defaultSerializeFields fs = fs
  | [], _ => rfl
  | (k, v) :: fs, h => by
    simp only [plainFields, Bool.and_eq_true] at h
    simp only [defaultSerializeFields]
    rw [defaultSerialize_plain v h.1, defaultSerializeFields_plain fs h.2]

end

theorem findField_replacerSerializeFields (k : String) :
    ∀ fs : List (String × Val),
      findField k (replacerSerializeFields fs) = (findField k fs).map replacerSerialize
  | [] => rfl
  | (k', v) :: fs => by
    simp only [replacerSerializeFields, findField]
    by_cases h : (k' == k) = true
    · rw [if_pos h, if_pos h]
      rfl
    · rw [if_neg h, if_neg h]
      exact findField_replacerSerializeFields k fs

theorem keys_replacerSerializeFields :
    ∀ fs : List (String × Val),
      (replacerSerializeFields fs).map Prod.fst = fs.map Prod.fst
  | [] => rfl
  | (k, v) :: fs => by
    simp only [replacerSerializeFields, List.map_cons]
    rw [keys_replacerSerializeFields fs]

theorem findField_setKey_self : ∀ (fs : List (String × Val)) (k : String) (v : Val),
    findField k (setKey fs k v) = some v
  | [], k, v => by simp [setKey, findField]
  | (k₀, v₀) :: fs, k, v => by
    simp only [setKey]
    by_cases h₀ : (k₀ == k) = true
    · rw [if_pos h₀]
      simp [findField]
    · rw [if_neg h₀]
      simp only [findField]
      rw [if_neg h₀]
      exact findField_setKey_self fs k v

theorem findField_setKey_ne : ∀ (fs : List (String × Val)) (k k' : String) (v : Val),
    (k' == k) = false → findField k (setKey fs k' v) = findField k fs
  | [], k, k', v, h => by simp [setKey, findField, h]
  | (k₀, v₀) :: fs, k, k', v, h => by
    simp only [setKey]
    by_cases h₀ : (k₀ == k') = true
    · rw [if_pos h₀]
      simp only [findField]
      rw [if_neg (by simp [h]), if_neg]
      intro hc
      have e1 : k₀ = k' := by simpa using h₀
      have e2 : k₀ = k := by simpa using hc
      rw [e1] at e2
      simp [e2] at h
    · rw [if_neg h₀]
      simp only [findField]
      by_cases hk : (k₀ == k) = true
      · rw [if_pos hk, if_pos hk]
      · rw [if_neg hk, if_neg hk]
        exact findField_setKey_ne fs k k' v h

theorem findField_assignFields_notin :
    ∀ (ex base : List (String × Val)) (k : String),
      (ex.all fun kv => !(kv.1 == k)) = true →
      findField k (assignFields base ex) = findField k base
  | [], base, k, _ => rfl
  | (k₁, v₁) :: ex, base, k, h => by
    simp only [List.all_cons, Bool.and_eq_true, Bool.not_eq_eq_eq_not, Bool.not_true] at h
    simp only [assignFields]
    rw [findField_assignFields_notin ex (setKey base k₁ v₁) k (by
      simpa [List.all_eq_true] using (by simpa [List.all_eq_true] using h.2))]
    exact findField_setKey_ne base k k₁ v₁ h.1

theorem findField_assignFields_mem :
    ∀ (ex base : List (String × Val)) (k : String) (v : Val),
      (ex.map Prod.fst).Nodup → (k, v) ∈ ex →
      findField k (assignFields base ex) = some v
  | [], _, _, _, _, hmem => by simp at hmem
  | (k₁, v₁) :: ex, base, k, v, hnd, hmem => by
    simp only [List.map_cons, List.nodup_cons] at hnd
    rcases List.mem_cons.mp hmem with hhd | htl
    · have hk : k = k₁ := congrArg Prod.fst hhd
      have hv : v = v₁ := congrArg Prod.snd hhd
      subst hk
      subst hv
      simp only [assignFields]
      rw [findField_assignFields_notin ex (setKey base k v) k (by
        simp only [List.all_eq_true, Bool.not_eq_eq_eq_not, Bool.not_true]
        intro kv hkv
        simp only [beq_eq_false_iff_ne, ne_eq]
        intro hc
        exact hnd.1 (hc ▸ List.mem_map_of_mem Prod.fst hkv))]
      exact findField_setKey_self base k v
    · simp only [assignFields]
      exact findField_assignFields_mem ex (setKey base k₁ v₁) k v hnd.2 htl

theorem mem_replacerSerializeFields :
    ∀ (fs : List (String × Val)) (k : String) (v : Val),
      (k, v) ∈ fs → (k, replacerSerialize v) ∈ replacerSerializeFields fs
  | [], _, _, hmem => by simp at hmem
  | (k₀, v₀) :: fs, k, v, hmem => by
    rcases List.mem_cons.mp hmem with hhd | htl
    · have hk : k₀ = k := (congrArg Prod.fst hhd).symm
      have hv : v₀ = v := (congrArg Prod.snd hhd).symm
      subst hk
      subst hv
      simp [replacerSerializeFields]
    · simp only [replacerSerializeFields]
      exact List.mem_cons_of_mem _ (mem_replacerSerializeFields fs k v htl)

theorem raceOf_of_some (st : CallState) (r : RaceResult) (h : st.race = some r) :
    raceOf st = some r := by
  unfold raceOf
  rw [h]

theorem goodSt_init (cfg : CallCfg) : GoodSt cfg initCall := by
  refine ⟨Or.inl ⟨rfl, rfl⟩, ?_, ?_, ?_⟩ <;> simp [initCall]

theorem settleRace_race_eq (st : CallState) (r : RaceResult) (h : st.race = some r) :
    (settleRace st).race = some r := by
  simp [settleRace, raceOf, h]

theorem goodSt_step (cfg : CallCfg) (st : CallState) (e : Ev) (h : GoodSt cfg st) :
    GoodSt cfg (Remotify.step cfg st e) := by
  obtain ⟨hreg, hoc, hcr, hto⟩ := h
  obtain ⟨inR, del, pr, dw, rc, cr, oc, pd, tf, dr⟩ := st
  simp only at hreg hoc hcr hto
  cases e with
  | pubOk =>
    simp only [Remotify.step]
    by_cases hp : pd = true
    · rw [if_pos hp]
      exact ⟨hreg, hoc, hcr, hto⟩
    · rw [if_neg hp]
      refine ⟨hreg, hoc, ?_, ?_⟩
      · intro hct
        have hrc := hcr hct
        obtain ⟨r, hr⟩ := Option.ne_none_iff_exists'.mp hrc
        rw [settleRace_race_eq _ r (by simpa using hr)]
        simp
      · intro hct hrace
        have hrc := hcr hct
        obtain ⟨r, hr⟩ := Option.ne_none_iff_exists'.mp hrc
        rw [settleRace_race_eq _ r (by simpa using hr)] at hrace
        cases hrace
        have := hto hct (by simpa using hr)
        simpa [settleRace] using this
  | pubZero =>
    simp only [Remotify.step]
    by_cases hp : pd = true
    · rw [if_pos hp]
      exact ⟨hreg, hoc, hcr, hto⟩
    · rw [if_neg hp]
      refine ⟨hreg, hoc, ?_, ?_⟩
      · intro hct
        have hrc := hcr hct
        obtain ⟨r, hr⟩ := Option.ne_none_iff_exists'.mp hrc
        rw [settleRace_race_eq _ r (by simpa using hr)]
        simp
      · intro hct hrace
        have hrc := hcr hct
        obtain ⟨r, hr⟩ := Option.ne_none_iff_exists'.mp hrc
        rw [settleRace_race_eq _ r (by simpa using hr)] at hrace
        cases hrace
        have := hto hct (by simpa using hr)
        simpa [settleRace] using this
  | pubErr ev =>
    simp only [Remotify.step]
    by_cases hp : pd = true
    · rw [if_pos hp]
      exact ⟨hreg, hoc, hcr, hto⟩
    · rw [if_neg hp]
      refine ⟨hreg, hoc, ?_, ?_⟩
      · intro hct
        have hrc := hcr hct
        obtain ⟨r, hr⟩ := Option.ne_none_iff_exists'.mp hrc
        rw [settleRace_race_eq _ r (by simpa using hr)]
        simp
      · intro hct hrace
        have hrc := hcr hct
        obtain ⟨r, hr⟩ := Option.ne_none_iff_exists'.mp hrc
        rw [settleRace_race_eq _ r (by simpa using hr)] at hrace
        cases hrace
        have := hto hct (by simpa using hr)
        simpa [settleRace] using this
  | reply success result =>
    simp only [Remotify.step]
    by_cases hin : inR = true
    · rw [if_pos hin]
      have hdel : del = 0 := by
        rcases hreg with ⟨_, h0⟩ | ⟨hf, _⟩
        · exact h0
        · rw [hin] at hf
          cases hf
      refine ⟨?_, hoc, ?_, ?_⟩
      · right
        constructor
        · simp [settleRace]
        · simp [settleRace, hdel]
      · intro hct
        have hrc := hcr (by simpa [settleRace] using hct)
        obtain ⟨r, hr⟩ := Option.ne_none_iff_exists'.mp hrc
        rw [settleRace_race_eq _ r (by simpa using hr)]
        simp
      · intro hct hrace
        have hct' : cr = true := by simpa [settleRace] using hct
        have hrc := hcr hct'
        obtain ⟨r, hr⟩ := Option.ne_none_iff_exists'.mp hrc
        rw [settleRace_race_eq _ r (by simpa using hr)] at hrace
        cases hrace
        have := hto hct' (by simpa using hr)
        constructor
        · simpa [settleRace] using this.1
        · simp [settleRace]
    · rw [if_neg hin]
      exact ⟨hreg, hoc, hcr, hto⟩
  | timerFire =>
    simp only [Remotify.step]
    by_cases ht : tf = true
    · rw [if_pos ht]
      exact ⟨hreg, hoc, hcr, hto⟩
    · rw [if_neg ht]
      cases rc with
      | none =>
        refine ⟨hreg, hoc, by simp, ?_⟩
        intro hct
        have := hcr (by simpa using hct)
        simp at this
      | some r =>
        refine ⟨hreg, hoc, by simp, ?_⟩
        intro hct hrace
        simp only at hrace
        exact hto (by simpa using hct) hrace
  | cont =>
    simp only [Remotify.step]
    by_cases hct : cr = true
    · rw [if_pos hct]
      exact ⟨hreg, hoc, hcr, hto⟩
    · rw [if_neg hct]
      cases rc with
      | none => exact ⟨hreg, hoc, hcr, hto⟩
      | some r =>
        cases r with
        | allRejected v => exact ⟨hreg, fun _ => rfl, by simp, by simp⟩
        | allDone v => exact ⟨hreg, fun _ => rfl, by simp, by simp⟩
        | timedoutSym =>
          by_cases hin : inR = true
          · rw [if_pos hin]
            refine ⟨?_, fun _ => rfl, by simp, by simp⟩
            right
            refine ⟨rfl, ?_⟩
            rcases hreg with ⟨_, h0⟩ | ⟨hf, _⟩
            · simp [h0]
            · rw [hin] at hf
              cases hf
          · rw [if_neg hin]
            refine ⟨?_, fun _ => rfl, by simp, ?_⟩
            · rcases hreg with ⟨ht, _⟩ | ⟨hf, h1⟩
              · exact absurd ht hin
              · exact Or.inr ⟨hf, h1⟩
            · intro _ _
              constructor
              · rfl
              · rcases hreg with ⟨ht, _⟩ | ⟨hf, _⟩
                · exact absurd ht hin
                · exact hf

theorem goodSt_foldl (cfg : CallCfg) :
    ∀ (evs : List Ev) (st : CallState), GoodSt cfg st →
      GoodSt cfg (evs.foldl (Remotify.step cfg) st)
  | [], st, h => h
  | e :: evs, st, h =>
    goodSt_foldl cfg evs (Remotify.step cfg st e) (goodSt_step cfg st e h)

theorem goodSt_run (cfg : CallCfg) (evs : List Ev) :
    GoodSt cfg (Remotify.run cfg evs) :=
  goodSt_foldl cfg evs initCall (goodSt_init cfg)

theorem step_outcome_stable (cfg : CallCfg) (st : CallState) (e : Ev)
    (h : GoodSt cfg st) (o : Outcome) (ho : st.outcome = some o) :
    (Remotify.step cfg st e).outcome = some o := by
  obtain ⟨hreg, hoc, hcr, hto⟩ := h
  have hct : st.contRan = true := hoc (by simp [ho])
  obtain ⟨inR, del, pr, dw, rc, cr, oc, pd, tf, dr⟩ := st
  simp only at ho hct
  cases e with
  | pubOk =>
    simp only [Remotify.step]
    by_cases hp : pd = true
    · rw [if_pos hp]
      exact ho
    · rw [if_neg hp]
      simpa [settleRace] using ho
  | pubZero =>
    simp only [Remotify.step]
    by_cases hp : pd = true
    · rw [if_pos hp]
      exact ho
    · rw [if_neg hp]
      simpa [settleRace] using ho
  | pubErr ev =>
    simp only [Remotify.step]
    by_cases hp : pd = true
    · rw [if_pos hp]
      exact ho
    · rw [if_neg hp]
      simpa [settleRace] using ho
  | reply success result =>
    simp only [Remotify.step]
    by_cases hin : inR = true
    · rw [if_pos hin]
      simpa [settleRace] using ho
    · rw [if_neg hin]
      exact ho
  | timerFire =>
    simp only [Remotify.step]
    by_cases ht : tf = true
    · rw [if_pos ht]
      exact ho
    · rw [if_neg ht]
      cases rc <;> simpa using ho
  | cont =>
    simp only [Remotify.step]
    rw [if_pos hct]
    exact ho

theorem foldl_outcome_stable (cfg : CallCfg) (o : Outcome) :
    ∀ (evs : List Ev) (st : CallState), GoodSt cfg st → st.outcome = some o →
      (evs.foldl (Remotify.step cfg) st).outcome = some o
  | [], _, _, ho => ho
  | e :: evs, st, hg, ho =>
    foldl_outcome_stable cfg o evs (Remotify.step cfg st e)
      (goodSt_step cfg st e hg) (step_outcome_stable cfg st e hg o ho)

theorem run_outcome_stable (cfg : CallCfg) (evs : List Ev) (o : Outcome)
    (h : (Remotify.run cfg evs).outcome = some o) (evs' : List Ev) :
    (Remotify.run cfg (evs ++ evs')).outcome = some o := by
  rw [Remotify.run, List.foldl_append]
  exact foldl_outcome_stable cfg o evs' (Remotify.run cfg evs) (goodSt_run cfg evs) h

theorem step_downRejected (cfg : CallCfg) (st : CallState) (e : Ev)
    (he : e.isPubZero = false) :
    (Remotify.step cfg st e).downRejected = st.downRejected := by
  obtain ⟨inR, del, pr, dw, rc, cr, oc, pd, tf, dr⟩ := st
  cases e with
  | pubOk =>
    simp only [Remotify.step]
    by_cases hp : pd = true
    · rw [if_pos hp]
    · rw [if_neg hp]
      simp [settleRace]
  | pubZero => simp [Ev.isPubZero] at he
  | pubErr ev =>
    simp only [Remotify.step]
    by_cases hp : pd = true
    · rw [if_pos hp]
    · rw [if_neg hp]
      simp [settleRace]
  | reply success result =>
    simp only [Remotify.step]
    by_cases hin : inR = true
    · rw [if_pos hin]
      simp [settleRace]
    · rw [if_neg hin]
  | timerFire =>
    simp only [Remotify.step]
    by_cases ht : tf = true
    · rw [if_pos ht]
    · rw [if_neg ht]
      cases rc <;> simp
  | cont =>
    simp only [Remotify.step]
    by_cases hct : cr = true
    · rw [if_pos hct]
    · rw [if_neg hct]
      cases rc with
      | none => rfl
      | some r =>
        cases r with
        | allRejected v => rfl
        | allDone v => rfl
        | timedoutSym =>
          by_cases hin : inR = true
          · rw [if_pos hin]
          · rw [if_neg hin]

theorem run_downRejected (cfg : CallCfg) :
    ∀ (evs : List Ev), (evs.all fun e => !e.isPubZero) = true →
      (Remotify.run cfg evs).downRejected = false := by
  have gen : ∀ (evs : List Ev) (st : CallState),
      (evs.all fun e => !e.isPubZero) = true → st.downRejected = false →
      (evs.foldl (Remotify.step cfg) st).downRejected = false := by
    intro evs
    induction evs with
    | nil => intro st _ h; exact h
    | cons e evs ih =>
      intro st hall hst
      simp only [List.all_cons, Bool.and_eq_true, Bool.not_eq_eq_eq_not, Bool.not_true] at hall
      exact ih (Remotify.step cfg st e)
        (by simpa [List.all_eq_true] using (by simpa [List.all_eq_true] using hall.2))
        ((step_downRejected cfg st e hall.1).trans hst)
  intro evs hall
  exact gen evs initCall hall rfl

theorem step_reply_noop (cfg : CallCfg) (st : CallState) (success : Bool) (result : Val)
    (h : st.inReg = false) : Remotify.step cfg st (.reply success result) = st := by
  simp [Remotify.step, h]

theorem allocSeq_eq_range' : ∀ (n : Nat) (st : CallbacksState),
    allocSeq st n = List.range' (st.cbCounter + 1) n
  | 0, _ => rfl
  | n + 1, st => by
    simp only [allocSeq, Remotify.addCallback]
    rw [allocSeq_eq_range' n]
    rw [List.range'_succ]

/-- C9: within one Caller instance, `addCallback` hands out correlation
ids `1, 2, 3, ...`: the ids of consecutive calls are strictly
increasing, all strictly positive (so the first one is greater than
zero), and pairwise distinct. -/
theorem C9_correlation_ids (n : Nat) :
    (allocSeq initCallbacks n).Pairwise (· < ·) ∧
    (∀ i ∈ allocSeq initCallbacks n, 0 < i) ∧
    (allocSeq initCallbacks n).Nodup := by
  rw [allocSeq_eq_range']
  refine ⟨List.pairwise_lt_range' _ _, ?_, List.nodup_range' _ _⟩
  intro i hi
  rw [List.mem_range'] at hi
  omega

theorem C9_correlation_ids_witness :
    (allocSeq initCallbacks 3).Pairwise (· < ·) ∧
    (∀ i ∈ allocSeq initCallbacks 3, 0 < i) ∧
    (allocSeq initCallbacks 3).Nodup :=
  C9_correlation_ids 3

/-- C2 (exhibit of the code bug): a call whose publish acknowledgment
reports zero subscribers settles — it rejects with the BackendDown
error — while its `PendingCall` entry is still in the registry and no
deletion has happened; `Remotify.remotify` has no cleanup on the path
where `await Promise.race` throws, so the entry is never removed. -/
theorem C2_backendDown_leak :
    (Remotify.run { serverid := "backend", fnname := "f", args := [] }
        [Ev.pubZero, Ev.cont]).outcome
      = some (Outcome.rejected (backendDownError "backend")) ∧
    (Remotify.run { serverid := "backend", fnname := "f", args := [] }
        [Ev.pubZero, Ev.cont]).inReg = true ∧
    (Remotify.run { serverid := "backend", fnname := "f", args := [] }
        [Ev.pubZero, Ev.cont]).deletions = 0 :=
  ⟨rfl, rfl, rfl⟩

/-- C4: whenever the timeout timer wins the race (the state reached by a
call with no reply inside the window) and the continuation has run, the
call has rejected with the timeout record carrying the function name and
the arguments, the registry entry has been removed, and a reply arriving
afterward is a strict no-op on the call state (so no settled-state
change and no registry growth). -/
theorem C4_timeout_cleanup (cfg : CallCfg) (evs : List Ev) (success : Bool) (result : Val)
    (h1 : (Remotify.run cfg evs).contRan = true)
    (h2 : (Remotify.run cfg evs).race = some RaceResult.timedoutSym) :
    (Remotify.run cfg evs).outcome
      = some (Outcome.rejected (timeoutError cfg.fnname cfg.args)) ∧
    (Remotify.run cfg evs).inReg = false ∧
    Remotify.step cfg (Remotify.run cfg evs) (.reply success result)
      = Remotify.run cfg evs := by
  obtain ⟨hreg, hoc, hcr, hto⟩ := goodSt_run cfg evs
  have hx := hto h1 h2
  exact ⟨hx.1, hx.2, step_reply_noop cfg _ success result hx.2⟩

theorem C4_timeout_cleanup_witness :
    (Remotify.run { serverid := "backend", fnname := "f", args := [Val.num 3] }
        [Ev.pubOk, Ev.timerFire, Ev.cont]).outcome
      = some (Outcome.rejected (timeoutError "f" [Val.num 3])) ∧
    (Remotify.run { serverid := "backend", fnname := "f", args := [Val.num 3] }
        [Ev.pubOk, Ev.timerFire, Ev.cont]).inReg = false ∧
    Remotify.step { serverid := "backend", fnname := "f", args := [Val.num 3] }
        (Remotify.run { serverid := "backend", fnname := "f", args := [Val.num 3] }
          [Ev.pubOk, Ev.timerFire, Ev.cont]) (.reply true Val.null)
      = Remotify.run { serverid := "backend", fnname := "f", args := [Val.num 3] }
          [Ev.pubOk, Ev.timerFire, Ev.cont] :=
  C4_timeout_cleanup { serverid := "backend", fnname := "f", args := [Val.num 3] }
    [Ev.pubOk, Ev.timerFire, Ev.cont] true Val.null rfl rfl

/-- C5: a zero-subscriber publish acknowledgment immediately settles the
race and rejects the call with the BackendDown error naming the target
serverid — the exhibited schedule contains no timer event and no reply,
and the timer has not fired when the call settles — while a schedule
whose publish acknowledgment is never `pubZero` can never fire the
zero-subscriber rejection branch. -/
theorem C5_down_detection (cfg : CallCfg) (evs : List Ev)
    (h : (evs.all fun e => !e.isPubZero) = true) :
    (Remotify.run cfg [Ev.pubZero, Ev.cont]).outcome
      = some (Outcome.rejected (backendDownError cfg.serverid)) ∧
    (Remotify.run cfg [Ev.pubZero, Ev.cont]).timerFired = false ∧
    backendDownError cfg.serverid
      = Val.err (cfg.serverid ++ " backend is down or method does not exist") "" "Error"
          [("cause", Val.str "remotifyBackendDown")] ∧
    (Remotify.run cfg evs).downRejected = false := by
  refine ⟨?_, ?_, rfl, run_downRejected cfg evs h⟩
  · simp [Remotify.run, Remotify.step, settleRace, raceOf, initCall]
  · simp [Remotify.run, Remotify.step, settleRace, raceOf, initCall]

theorem C5_down_detection_witness :
    (Remotify.run { serverid := "backend", fnname := "f", args := [] }
        [Ev.pubZero, Ev.cont]).outcome
      = some (Outcome.rejected (backendDownError "backend")) ∧
    (Remotify.run { serverid := "backend", fnname := "f", args := [] }
        [Ev.pubZero, Ev.cont]).timerFired = false ∧
    backendDownError "backend"
      = Val.err ("backend" ++ " backend is down or method does not exist") "" "Error"
          [("cause", Val.str "remotifyBackendDown")] ∧
    (Remotify.run { serverid := "backend", fnname := "f", args := [] }
        [Ev.pubOk, Ev.cont]).downRejected = false :=
  C5_down_detection { serverid := "backend", fnname := "f", args := [] }
    [Ev.pubOk, Ev.cont] (by decide)

/-- C10: the two no-reply failure shapes are distinguishable and
exclusive: the BackendDown rejection is an `Error` instance whose
`cause` property is `"remotifyBackendDown"`, the timeout rejection is a
plain non-Error record with fields `cause`/`fnname`/`args`/`message`,
the two values are never equal, and a call's outcome is write-once (an
outcome reached after some schedule persists under any further events),
so at most one rejection shape is ever produced for one call. -/
theorem C10_rejection_shapes (s f : String) (a : List Val) (cfg : CallCfg)
    (evs evs' : List Ev) (o : Outcome)
    (h : (Remotify.run cfg evs).outcome = some o) :
    (backendDownError s).isError = true ∧
    (backendDownError s).getProp "cause" = some (Val.str "remotifyBackendDown") ∧
    (timeoutError f a).isError = false ∧
    timeoutError f a = Val.obj [("cause", Val.str "timeout"), ("fnname", Val.str f),
      ("args", Val.arr a), ("message", Val.str "Timeout")] ∧
    backendDownError s ≠ timeoutError f a ∧
    (Remotify.run cfg (evs ++ evs')).outcome = some o := by
  refine ⟨rfl, ?_, rfl, rfl, ?_, run_outcome_stable cfg evs o h evs'⟩
  · rfl
  · intro hc
    exact Val.noConfusion hc

theorem C10_rejection_shapes_witness :
    (backendDownError "backend").isError = true ∧
    (backendDownError "backend").getProp "cause" = some (Val.str "remotifyBackendDown") ∧
    (timeoutError "f" []).isError = false ∧
    timeoutError "f" [] = Val.obj [("cause", Val.str "timeout"), ("fnname", Val.str "f"),
      ("args", Val.arr []), ("message", Val.str "Timeout")] ∧
    backendDownError "backend" ≠ timeoutError "f" [] ∧
    (Remotify.run { serverid := "backend", fnname := "f", args := [] }
        ([Ev.pubZero, Ev.cont] ++ [Ev.timerFire])).outcome
      = some (Outcome.rejected (backendDownError "backend")) :=
  C10_rejection_shapes "backend" "f" [] { serverid := "backend", fnname := "f", args := [] }
    [Ev.pubZero, Ev.cont] [Ev.timerFire] (Outcome.rejected (backendDownError "backend")) rfl

/-- C3 (amended): the caller's reply dispatcher decides what to do using
only topic segments 1–3 (`remotify`, the serverid, `callback`) plus the
payload's correlation id — two topics agreeing on those three segments
are dispatched identically, whatever their callerId segment — and on any
topic of the reply shape a payload whose correlation id is in the
registry settles that pending call, regardless of the topic's callerId
segment. -/
theorem C3_reply_dispatch (serverid clientid : String) (registry : List Nat)
    (ns₁ ns₂ ns c : String) (parsed : Option CallbackMsg) (data : CallbackMsg)
    (h1 : (splitSlash ns₁).get? 1 = (splitSlash ns₂).get? 1)
    (h2 : (splitSlash ns₁).get? 2 = (splitSlash ns₂).get? 2)
    (h3 : (splitSlash ns₁).get? 3 = (splitSlash ns₂).get? 3)
    (hsplit : splitSlash ns = ["", "remotify", serverid, "callback", c])
    (hreg : registry.contains data.callback = true) :
    Remotify.onCallback serverid clientid registry ns₁ parsed
      = Remotify.onCallback serverid clientid registry ns₂ parsed ∧
    Remotify.onCallback serverid clientid registry ns (some data)
      = .ok (registry.filter (fun i => !(i == data.callback)),
             .settled data.callback data.success data.result) := by
  constructor
  · simp only [Remotify.onCallback]
    rw [h1, h2, h3]
  · simp only [Remotify.onCallback, hsplit]
    simp only [List.get?]
    simp [hreg]
    simpa using hreg

theorem C3_reply_dispatch_witness :
    Remotify.onCallback "backend" "me_1234" [1] "/remotify/backend/callback/me_1234"
        (some { callback := 1, method := "m", success := true, result := Val.null })
      = Remotify.onCallback "backend" "me_1234" [1] "/remotify/backend/callback/other_9999"
          (some { callback := 1, method := "m", success := true, result := Val.null }) ∧
    Remotify.onCallback "backend" "me_1234" [1] "/remotify/backend/callback/other_9999"
        (some { callback := 1, method := "m", success := true, result := Val.null })
      = .ok ([1].filter (fun i => !(i == 1)), .settled 1 true Val.null) :=
  C3_reply_dispatch "backend" "me_1234" [1]
    "/remotify/backend/callback/me_1234" "/remotify/backend/callback/other_9999"
    "/remotify/backend/callback/other_9999" "other_9999"
    (some { callback := 1, method := "m", success := true, result := Val.null })
    { callback := 1, method := "m", success := true, result := Val.null }
    rfl rfl rfl rfl rfl

/-- C3 (counterexample to the claim as stated): this caller's identity
is `me_1234`, the inbound topic's callerId segment is the different
string `other_9999`, yet the message is not ignored: the pending call
with correlation id 1 is settled and the registry entry is removed. -/
theorem C3_cross_caller_counterexample :
    ("other_9999" ≠ "me_1234") ∧
    Remotify.onCallback "backend" "me_1234" [1] "/remotify/backend/callback/other_9999"
        (some { callback := 1, method := "m", success := true, result := Val.null })
      = .ok ([], .settled 1 true Val.null) :=
  ⟨by decide, rfl⟩

/-- C7 (amended): for each of the three subscribers (listener call
dispatch, caller reply dispatch, event subscriber), a message whose
topic fails that subscriber's expected segment values is ignored without
error and without registry change, whatever the payload — even a
malformed one, since the topic checks precede the parse; but on a topic
that does match, a malformed payload makes `JSON.parse` throw (modelled
as `.error ()`) instead of being silently ignored. -/
theorem C7_topic_and_payload (serverid clientid nsCfg : String)
    (fns : List (String × Handler)) (registry : List Nat) (keys : List String)
    (ns : String) (pc : Option CallMsg) (pb : Option CallbackMsg)
    (pe : Option (String × Val)) :
    (((splitSlash ns).get? 1 ≠ some "remotify" ∨ (splitSlash ns).get? 2 ≠ some serverid ∨
        (splitSlash ns).get? 3 ≠ some "call") →
      Listen.onCall serverid fns ns pc = .ok none) ∧
    (((splitSlash ns).get? 1 ≠ some "remotify" ∨ (splitSlash ns).get? 2 ≠ some serverid ∨
        (splitSlash ns).get? 3 ≠ some "callback") →
      Remotify.onCallback serverid clientid registry ns pb = .ok (registry, .ignored)) ∧
    (((splitSlash ns).get? 1 ≠ some "remotifyEvent" ∨ (splitSlash ns).get? 2 ≠ some nsCfg) →
      RedisEventSubscriber.onEvent nsCfg keys ns pe = .ok none) ∧
    ((splitSlash ns).get? 1 = some "remotify" → (splitSlash ns).get? 2 = some serverid →
      (splitSlash ns).get? 3 = some "call" →
      Listen.onCall serverid fns ns none = .error ()) ∧
    ((splitSlash ns).get? 1 = some "remotify" → (splitSlash ns).get? 2 = some serverid →
      (splitSlash ns).get? 3 = some "callback" →
      Remotify.onCallback serverid clientid registry ns none = .error ()) := by
  refine ⟨?_, ?_, ?_, ?_, ?_⟩
  · intro h
    simp only [Listen.onCall]
    rcases h with h | h | h
    · rw [if_pos h]
    · by_cases h1 : (splitSlash ns).get? 1 ≠ some "remotify"
      · rw [if_pos h1]
      · rw [if_neg h1, if_pos h]
    · by_cases h1 : (splitSlash ns).get? 1 ≠ some "remotify"
      · rw [if_pos h1]
      · by_cases h2 : (splitSlash ns).get? 2 ≠ some serverid
        · rw [if_neg h1, if_pos h2]
        · rw [if_neg h1, if_neg h2, if_pos h]
  · intro h
    simp only [Remotify.onCallback]
    rcases h with h | h | h
    · rw [if_pos h]
    · by_cases h1 : (splitSlash ns).get? 1 ≠ some "remotify"
      · rw [if_pos h1]
      · rw [if_neg h1, if_pos h]
    · by_cases h1 : (splitSlash ns).get? 1 ≠ some "remotify"
      · rw [if_pos h1]
      · by_cases h2 : (splitSlash ns).get? 2 ≠ some serverid
        · rw [if_neg h1, if_pos h2]
        · rw [if_neg h1, if_neg h2, if_pos h]
  · intro h
    simp only [RedisEventSubscriber.onEvent]
    rcases h with h | h
    · rw [if_pos h]
    · by_cases h1 : (splitSlash ns).get? 1 ≠ some "remotifyEvent"
      · rw [if_pos h1]
      · rw [if_neg h1, if_pos h]
  · intro h1 h2 h3
    simp only [Listen.onCall]
    rw [if_neg (fun hc => hc h1), if_neg (fun hc => hc h2), if_neg (fun hc => hc h3)]
  · intro h1 h2 h3
    simp only [Remotify.onCallback]
    rw [if_neg (fun hc => hc h1), if_neg (fun hc => hc h2), if_neg (fun hc => hc h3)]

theorem C7_topic_and_payload_witness :
    (((splitSlash "/other/x/y/z").get? 1 ≠ some "remotify" ∨
        (splitSlash "/other/x/y/z").get? 2 ≠ some "backend" ∨
        (splitSlash "/other/x/y/z").get? 3 ≠ some "call") →
      Listen.onCall "backend" [] "/other/x/y/z" none = .ok none) ∧
    (((splitSlash "/other/x/y/z").get? 1 ≠ some "remotify" ∨
        (splitSlash "/other/x/y/z").get? 2 ≠ some "backend" ∨
        (splitSlash "/other/x/y/z").get? 3 ≠ some "callback") →
      Remotify.onCallback "backend" "me" [1] "/other/x/y/z" none = .ok ([1], .ignored)) ∧
    (((splitSlash "/other/x/y/z").get? 1 ≠ some "remotifyEvent" ∨
        (splitSlash "/other/x/y/z").get? 2 ≠ some "chan") →
      RedisEventSubscriber.onEvent "chan" [] "/other/x/y/z" none = .ok none) ∧
    ((splitSlash "/other/x/y/z").get? 1 = some "remotify" →
      (splitSlash "/other/x/y/z").get? 2 = some "backend" →
      (splitSlash "/other/x/y/z").get? 3 = some "call" →
      Listen.onCall "backend" [] "/other/x/y/z" none = .error ()) ∧
    ((splitSlash "/other/x/y/z").get? 1 = some "remotify" →
      (splitSlash "/other/x/y/z").get? 2 = some "backend" →
      (splitSlash "/other/x/y/z").get? 3 = some "callback" →
      Remotify.onCallback "backend" "me" [1] "/other/x/y/z" none = .error ()) :=
  C7_topic_and_payload "backend" "me" "chan" [] [1] [] "/other/x/y/z" none none none

/-- C7 (counterexample to the claim as stated): a malformed payload on a
topic matching the listener's expected segments is not ignored — the
dispatch throws (the `JSON.parse` raises), modelled as `.error ()`. -/
theorem C7_malformed_counterexample :
    Listen.onCall "backend" [] "/remotify/backend/call/f" none = .error () ∧
    Listen.onCall "backend" [] "/remotify/backend/call/f" none
      ≠ .ok (none : Option (String × CallbackMsg)) :=
  ⟨rfl, fun hc => Except.noConfusion hc⟩

/-- C8: a call message naming a function that is not in the listener's
registry makes the listener publish — without raising — a reply with
`success = false` whose result is the human-readable string `unknown
function "<name>"` (the listener's `fns` map is never written by
`Listen.onCall`, so all registrations are unchanged); and on the caller
side that reply settles the pending call through its reject path,
carrying that same string. -/
theorem C8_unknown_function (serverid clientid : String)
    (fns : List (String × Handler)) (ns fnname : String) (data : CallMsg)
    (registry : List Nat)
    (hsplit : splitSlash ns = ["", "remotify", serverid, "call", fnname])
    (hnone : lookupFn fns fnname = none)
    (hr : splitSlash (callbackTopic serverid data.clientid)
      = ["", "remotify", serverid, "callback", data.clientid])
    (hreg : registry.contains data.callback = true) :
    Listen.onCall serverid fns ns (some data)
      = .ok (some (callbackTopic serverid data.clientid,
          { callback := data.callback, method := ns, success := false,
            result := Val.str ("unknown function \"" ++ fnname ++ "\"") })) ∧
    Remotify.onCallback serverid clientid registry
        (callbackTopic serverid data.clientid)
        (some { callback := data.callback, method := ns, success := false,
                result := Val.str ("unknown function \"" ++ fnname ++ "\"") })
      = .ok (registry.filter (fun i => !(i == data.callback)),
             .settled data.callback false
               (Val.str ("unknown function \"" ++ fnname ++ "\""))) := by
  constructor
  · simp only [Listen.onCall, hsplit]
    simp [hnone, serializeCallbackMsg, replacerSerialize]
  · simp only [Remotify.onCallback, hr]
    simp [hreg]
    simpa using hreg

theorem C8_unknown_function_witness :
    Listen.onCall "backend" [] "/remotify/backend/call/nope"
        (some { clientid := "me_1", callback := 1, arguments := [] })
      = .ok (some (callbackTopic "backend" "me_1",
          { callback := 1, method := "/remotify/backend/call/nope", success := false,
            result := Val.str ("unknown function \"" ++ "nope" ++ "\"") })) ∧
    Remotify.onCallback "backend" "me_1" [1] (callbackTopic "backend" "me_1")
        (some { callback := 1, method := "/remotify/backend/call/nope", success := false,
                result := Val.str ("unknown function \"" ++ "nope" ++ "\"") })
      = .ok ([1].filter (fun i => !(i == 1)),
             .settled 1 false (Val.str ("unknown function \"" ++ "nope" ++ "\""))) :=
  C8_unknown_function "backend" "me_1" [] "/remotify/backend/call/nope" "nope"
    { clientid := "me_1", callback := 1, arguments := [] } [1] rfl rfl rfl rfl

theorem all_keys_ne_of_not_mem (ex : List (String × Val)) (k : String)
    (h : k ∉ ex.map Prod.fst) : (ex.all fun kv => !(kv.1 == k)) = true := by
  simp only [List.all_eq_true, Bool.not_eq_eq_eq_not, Bool.not_true, beq_eq_false_iff_ne,
    ne_eq]
  intro kv hkv hc
  exact h (hc ▸ List.mem_map_of_mem Prod.fst hkv)

/-- Bridge between the faithful transliteration `jsonReplacer` and the
recursive serialization: on an `Error` node, serializing after the
replacer's assignment loop equals assigning the three string fields over
the recursively serialized enumerable properties. -/
theorem replacerSerialize_err_eq_jsonReplacer (m s n : String)
    (extra : List (String × Val)) :
    replacerSerialize (Val.err m s n extra)
      = Val.obj (assignFields
          [("message", Val.str m), ("stack", Val.str s), ("name", Val.str n)]
          (replacerSerializeFields extra)) ∧
    jsonReplacer (Val.err m s n extra)
      = Val.obj (assignFields
          [("message", Val.str m), ("stack", Val.str s), ("name", Val.str n)] extra) := by
  constructor
  · simp [replacerSerialize]
  · rfl

/-- C6: a handler failure value that is an `Error` instance is
transmitted as a plain record that carries `message`, `stack` and `name`
plus every enumerable property of the error (each with its serialized
value — in particular an error with message `"boom"` and enumerable
field `code = 42` yields a record with `message = "boom"` and
`code = 42`); a failure value that is not an `Error` (any plain value)
passes through to the caller's rejection unchanged. -/
theorem C6_error_propagation (serverid : String)
    (fns : List (String × Handler)) (ns fnname : String) (f : Handler)
    (data : CallMsg) (m s n : String) (extra : List (String × Val)) (w : Val)
    (hsplit : splitSlash ns = ["", "remotify", serverid, "call", fnname])
    (hf : lookupFn fns fnname = some f) :
    (f data.arguments = .error (Val.err m s n extra) →
      "message" ∉ extra.map Prod.fst → "stack" ∉ extra.map Prod.fst →
      "name" ∉ extra.map Prod.fst → (extra.map Prod.fst).Nodup →
      (Listen.onCall serverid fns ns (some data)
        = .ok (some (callbackTopic serverid data.clientid,
            { callback := data.callback, method := ns, success := false,
              result := Val.obj (assignFields
                [("message", Val.str m), ("stack", Val.str s), ("name", Val.str n)]
                (replacerSerializeFields extra)) })) ∧
       findField "message" (assignFields
          [("message", Val.str m), ("stack", Val.str s), ("name", Val.str n)]
          (replacerSerializeFields extra)) = some (Val.str m) ∧
       findField "stack" (assignFields
          [("message", Val.str m), ("stack", Val.str s), ("name", Val.str n)]
          (replacerSerializeFields extra)) = some (Val.str s) ∧
       findField "name" (assignFields
          [("message", Val.str m), ("stack", Val.str s), ("name", Val.str n)]
          (replacerSerializeFields extra)) = some (Val.str n) ∧
       (∀ k v, (k, v) ∈ extra →
         findField k (assignFields
            [("message", Val.str m), ("stack", Val.str s), ("name", Val.str n)]
            (replacerSerializeFields extra)) = some (replacerSerialize v)))) ∧
    (f data.arguments = .error w → w.plain = true →
      Listen.onCall serverid fns ns (some data)
        = .ok (some (callbackTopic serverid data.clientid,
            { callback := data.callback, method := ns, success := false,
              result := w }))) := by
  constructor
  · intro herr hm hs hn hnd
    refine ⟨?_, ?_, ?_, ?_, ?_⟩
    · simp only [Listen.onCall, hsplit]
      simp [hf, herr, serializeCallbackMsg, replacerSerialize]
    · rw [findField_assignFields_notin _ _ _ (all_keys_ne_of_not_mem _ _ (by
        rw [keys_replacerSerializeFields]
        exact hm))]
      rfl
    · rw [findField_assignFields_notin _ _ _ (all_keys_ne_of_not_mem _ _ (by
        rw [keys_replacerSerializeFields]
        exact hs))]
      rfl
    · rw [findField_assignFields_notin _ _ _ (all_keys_ne_of_not_mem _ _ (by
        rw [keys_replacerSerializeFields]
        exact hn))]
      rfl
    · intro k v hmem
      exact findField_assignFields_mem _ _ _ _
        (by rw [keys_replacerSerializeFields]; exact hnd)
        (mem_replacerSerializeFields _ _ _ hmem)
  · intro herr hw
    simp only [Listen.onCall, hsplit]
    simp [hf, herr, serializeCallbackMsg, replacerSerialize_plain w hw]

theorem C6_error_propagation_witness :
    (Listen.onCall "backend" [("g", boomHandler)] "/remotify/backend/call/g"
        (some { clientid := "me_1", callback := 1, arguments := [] })
      = .ok (some (callbackTopic "backend" "me_1",
          { callback := 1, method := "/remotify/backend/call/g", success := false,
            result := Val.obj (assignFields
              [("message", Val.str "boom"), ("stack", Val.str "stacktrace"),
               ("name", Val.str "Error")]
              (replacerSerializeFields [("code", Val.num 42)])) })) ∧
     findField "message" (assignFields
        [("message", Val.str "boom"), ("stack", Val.str "stacktrace"),
         ("name", Val.str "Error")]
        (replacerSerializeFields [("code", Val.num 42)])) = some (Val.str "boom") ∧
     findField "stack" (assignFields
        [("message", Val.str "boom"), ("stack", Val.str "stacktrace"),
         ("name", Val.str "Error")]
        (replacerSerializeFields [("code", Val.num 42)])) = some (Val.str "stacktrace") ∧
     findField "name" (assignFields
        [("message", Val.str "boom"), ("stack", Val.str "stacktrace"),
         ("name", Val.str "Error")]
        (replacerSerializeFields [("code", Val.num 42)])) = some (Val.str "Error") ∧
     (∀ k v, (k, v) ∈ [("code", Val.num 42)] →
       findField k (assignFields
          [("message", Val.str "boom"), ("stack", Val.str "stacktrace"),
           ("name", Val.str "Error")]
          (replacerSerializeFields [("code", Val.num 42)])) = some (replacerSerialize v))) ∧
    Listen.onCall "backend" [("h", oopsHandler)] "/remotify/backend/call/h"
        (some { clientid := "me_1", callback := 2, arguments := [] })
      = .ok (some (callbackTopic "backend" "me_1",
          { callback := 2, method := "/remotify/backend/call/h", success := false,
            result := Val.str "oops" })) :=
  ⟨(C6_error_propagation "backend" [("g", boomHandler)] "/remotify/backend/call/g" "g"
      boomHandler { clientid := "me_1", callback := 1, arguments := [] }
      "boom" "stacktrace" "Error" [("code", Val.num 42)] Val.null rfl rfl).1
      rfl (by decide) (by decide) (by decide) (by decide),
   (C6_error_propagation "backend" [("h", oopsHandler)] "/remotify/backend/call/h" "h"
      oopsHandler { clientid := "me_1", callback := 2, arguments := [] }
      "" "" "" [] (Val.str "oops") rfl rfl).2 rfl rfl⟩

/-- C1: the full round trip. For a handler `f` registered under
`fnname`, arguments whose serialization is lossless (plain values) and a
successful direct result `f args = ok v` with `v` plain: the listener,
on the caller's published call topic and call message, publishes to
exactly the caller's reply topic the reply `success = true, result = v`;
that reply on the reply topic settles the caller's pending id through
its resolve path with `v`; and the in-flight call state machine, fed a
positive publish acknowledgment and that reply before any timeout,
resolves the call with exactly `v`, the value of calling `f` directly. -/
theorem C1_round_trip (serverid clientid fnname : String)
    (fns : List (String × Handler)) (f : Handler) (args : List Val) (v : Val) (id : Nat)
    (hf : lookupFn fns fnname = some f)
    (hv : f args = Except.ok v)
    (hargs : plainList args = true)
    (hvp : Val.plain v = true)
    (hc : splitSlash (callTopic serverid fnname)
      = ["", "remotify", serverid, "call", fnname])
    (hr : splitSlash (callbackTopic serverid clientid)
      = ["", "remotify", serverid, "callback", clientid]) :
    Listen.onCall serverid fns (callTopic serverid fnname)
        (some { clientid := clientid, callback := id,
                arguments := defaultSerializeList args })
      = .ok (some (callbackTopic serverid clientid,
          { callback := id, method := callTopic serverid fnname, success := true,
            result := v })) ∧
    Remotify.onCallback serverid clientid [id] (callbackTopic serverid clientid)
        (some { callback := id, method := callTopic serverid fnname, success := true,
                result := v })
      = .ok ([], .settled id true v) ∧
    (Remotify.run { serverid := serverid, fnname := fnname, args := args }
        [Ev.pubOk, Ev.reply true v, Ev.cont]).outcome
      = some (Outcome.resolved v) := by
  refine ⟨?_, ?_, ?_⟩
  · simp only [Listen.onCall, hc]
    rw [defaultSerializeList_plain args hargs]
    simp [hf, hv, serializeCallbackMsg, replacerSerialize_plain v hvp]
  · simp only [Remotify.onCallback, hr]
    simp
  · simp [Remotify.run, Remotify.step, settleRace, raceOf, initCall]

theorem C1_round_trip_witness :
    Listen.onCall "backend" [("Squarer.square", squareHandler)]
        (callTopic "backend" "Squarer.square")
        (some { clientid := "unnamed_ab12", callback := 1,
                arguments := defaultSerializeList [Val.num 3] })
      = .ok (some (callbackTopic "backend" "unnamed_ab12",
          { callback := 1, method := callTopic "backend" "Squarer.square",
            success := true, result := Val.num 9 })) ∧
    Remotify.onCallback "backend" "unnamed_ab12" [1]
        (callbackTopic "backend" "unnamed_ab12")
        (some { callback := 1, method := callTopic "backend" "Squarer.square",
                success := true, result := Val.num 9 })
      = .ok ([], .settled 1 true (Val.num 9)) ∧
    (Remotify.run
        { serverid := "backend", fnname := "Squarer.square", args := [Val.num 3] }
        [Ev.pubOk, Ev.reply true (Val.num 9), Ev.cont]).outcome
      = some (Outcome.resolved (Val.num 9)) :=
  C1_round_trip "backend" "unnamed_ab12" "Squarer.square"
    [("Squarer.square", squareHandler)] squareHandler [Val.num 3] (Val.num 9) 1
    rfl rfl rfl rfl rfl rfl
